import Mathlib

/-!
Shallow embedding of the accelos review-to-PR streaming pipeline.

Source files embedded here:
- `packages/accelos/src/tools/claude-code-streaming.ts` — the streaming
  Remediation Invoker (`claudeCodeStreamingTool.execute`) and its
  fire-and-forget progress counter (`safeWrite`).
- `packages/accelos/src/workflows/review-to-pr-streaming-workflow.ts` —
  the per-category dispatch of `claudeCodeAnalysisStep` (second variant in
  the file) and the git delivery logic of `finalizeStep` (first, real
  git-process variant in the file).

External effects (the remediation agent's message stream, `execSync` git
calls, the `gh` CLI, wall-clock time) are passed in as explicit parameters:
a `Transport` value for the agent stream and a `GitEnv` of per-command
outcomes for git.  The sequence of git commands actually issued is recorded
in a `trace` field as structured `GitCmd` values, one per `execSync`/`gh`
invocation the source performs.
-/

namespace AccelosSpec

/-- Helper for JS `String.prototype.includes`: does `pat` start the list `l`? -/
def listStartsWith : List Char → List Char → Bool
  | _, [] => true
  | [], _ :: _ => false
  | a :: as, b :: bs => a == b && listStartsWith as bs

/-- Does `pat` occur as a contiguous sublist of `l`? -/
def listContainsSub : List Char → List Char → Bool
  | l, pat =>
    listStartsWith l pat ||
      match l with
      | [] => false
      | _ :: rest => listContainsSub rest pat

/-- JS `s.includes(pat)`: `pat` is a contiguous substring of `s`. -/
def jsIncludes (s pat : String) : Bool := listContainsSub s.toList pat.toList

/-- JS `Array.from(new Set(l))` for string lists: deduplicate keeping the
first occurrence of each element, preserving insertion order. -/
def jsSetFromList (l : List String) : List String :=
  l.foldl (fun acc x => if acc.contains x then acc else acc ++ [x]) []

/-! Embedding of `claude-code-streaming.ts`. -/

/-- Content block inside an assistant SDK message (`content.type` is
`"text"`, `"tool_use"`, or something else). -/
inductive ContentBlock where
  | text (t : String)
  | toolUse (name : String)
  | other (ty : String)
deriving DecidableEq, Repr

/-- Closed sum of the SDK message kinds the `switch (message.type)` in the
source distinguishes: `result`, `assistant`, `user`, `system`, and the
`default` arm for anything else.  For `result` messages, `res` is `some r`
when the JS object has a `result` field (`"result" in message`). -/
inductive SDKMessage where
  | result (subtype : String) (res : Option String) (numTurns : Nat) (sessionId : String)
  | assistant (content : List ContentBlock) (sessionId : String)
  | user (sessionId : String)
  | system (subtype : String) (tools : Option (List String)) (sessionId : String)
  | other (ty : String)
deriving DecidableEq, Repr

/-- Kinds of progress events `emitProgress` can emit. -/
inductive EventKind where
  | starting
  | thinking
  | toolUse
  | toolResult
  | response
  | turnComplete
  | sessionComplete
  | error
deriving DecidableEq, Repr

/-- One progress event; `info` carries the distinguishing payload field
(error message, response text, tool name, …). -/
structure ProgressEvent where
  kind : EventKind
  info : String
deriving DecidableEq, Repr

/-- Mutable locals of `claudeCodeStreamingTool.execute` while iterating the
message stream, plus the event counter `streamingEventsEmitted` and the
(ghost) chronological list of events emitted so far. -/
structure QueryState where
  result : String
  turnsUsed : Nat
  toolsCalled : List String
  hasErrors : Bool
  sessionId : Option String
  currentTurn : Nat
  eventsEmitted : Nat
  events : List ProgressEvent
deriving DecidableEq, Repr

/-- `emitProgress` in the source: builds the event, calls `safeWrite`
(which only increments the counter) and logs it.  The log is the ghost
`events` list. -/
def emitProgress (st : QueryState) (kind : EventKind) (info : String) : QueryState :=
  { st with
    eventsEmitted := st.eventsEmitted + 1
    events := st.events ++ [⟨kind, info⟩] }

/-- Processing of one content block of an assistant message.  Text blocks
append to the running result and emit `response` (skipped when
`content.text` is falsy, i.e. empty); tool-use blocks record the tool name
once (when truthy and not already present) and emit `tool_use`. -/
def processContent (st : QueryState) (c : ContentBlock) : QueryState :=
  match c with
  | .text t =>
    if t = "" then st
    else emitProgress { st with result := st.result ++ t } .response t
  | .toolUse name =>
    let st1 :=
      if name ≠ "" && !st.toolsCalled.contains name then
        { st with toolsCalled := st.toolsCalled ++ [name] }
      else st
    emitProgress st1 .toolUse name
  | .other _ => st

/-- One iteration of the `for await (const message of query(...))` loop:
the `switch (message.type)` of the source. -/
def processMessage (debug : Bool) (st : QueryState) (m : SDKMessage) : QueryState :=
  match m with
  | .result subtype res numTurns sid =>
    let st1 :=
      if subtype == "success" && res.isSome then
        emitProgress { st with result := res.getD "" } .sessionComplete (res.getD "")
      else
        emitProgress { st with hasErrors := true, result := "Execution failed: " ++ subtype }
          .error ("Execution failed: " ++ subtype)
    { st1 with turnsUsed := numTurns, sessionId := some sid }
  | .assistant content sid =>
    let st1 := content.foldl processContent st
    let st2 := { st1 with sessionId := some sid, currentTurn := st1.currentTurn + 1 }
    emitProgress st2 .turnComplete (toString st2.currentTurn)
  | .user sid =>
    emitProgress { st with sessionId := some sid } .thinking "Processing user input"
  | .system subtype tools sid =>
    if subtype == "init" then
      let st1 := { st with sessionId := some sid }
      match tools with
      | some ts =>
        emitProgress { st1 with toolsCalled := jsSetFromList (st1.toolsCalled ++ ts) }
          .thinking
          ("Initialized with " ++ toString ts.length ++ " available tools: "
            ++ String.intercalate ", " ts)
      | none => st1
    else st
  | .other ty =>
    if debug then emitProgress st .thinking ("Received " ++ ty ++ " message") else st

/-- Initial values of the locals. -/
def initialQueryState : QueryState :=
  { result := "", turnsUsed := 0, toolsCalled := [], hasErrors := false,
    sessionId := none, currentTurn := 0, eventsEmitted := 0, events := [] }

/-- State after the `starting` event and the whole message loop. -/
def runMessages (debug : Bool) (prompt : String) (msgs : List SDKMessage) : QueryState :=
  msgs.foldl (processMessage debug) (emitProgress initialQueryState .starting prompt)

/-- Returned value of the tool (`result` plus `metadata`); wall-clock
`executionTime` is omitted.  `events` is the ghost list of emitted events. -/
structure InvocationResult where
  result : String
  turnsUsed : Nat
  toolsCalled : List String
  sessionId : Option String
  hasErrors : Bool
  streamingEventsEmitted : Nat
  events : List ProgressEvent
deriving DecidableEq, Repr

/-- Normal return after the loop: `result || "No result returned from
Claude Code"` plus the collected metadata. -/
def finishOk (st : QueryState) : InvocationResult :=
  { result := if st.result = "" then "No result returned from Claude Code" else st.result,
    turnsUsed := st.turnsUsed, toolsCalled := st.toolsCalled, sessionId := st.sessionId,
    hasErrors := st.hasErrors, streamingEventsEmitted := st.eventsEmitted,
    events := st.events }

/-- The external agent transport: the messages it yields, then optionally
an exception (its `.message` string) thrown during iteration. -/
structure Transport where
  messages : List SDKMessage
  thrown : Option String
deriving DecidableEq, Repr

/-- Error string used when `ANTHROPIC_API_KEY` is absent. -/
def apiKeyMissingMsg : String :=
  "ANTHROPIC_API_KEY environment variable is required for Claude Code tool. Please set it to your Anthropic API key."

/-- Stable message thrown for reclassified authentication failures. -/
def authFailedMsg : String :=
  "Authentication failed: Please ensure ANTHROPIC_API_KEY environment variable is set correctly."

/-- Stable message thrown for reclassified rate-limit/quota failures. -/
def rateLimitMsg : String :=
  "Rate limit or quota exceeded: Please check your Anthropic API usage and try again later."

/-- `claudeCodeStreamingTool.execute`: fail fast when the API key is
absent; otherwise iterate the transport's messages; if the transport throws
(an `Error` whose message is `e`), emit an `error` event, then either
re-throw a reclassified error (message contains `ANTHROPIC_API_KEY`, or
`rate limit`/`quota`) — modelled as `Except.error` — or return a
structured error result. -/
def claudeCodeStreamingExecute (apiKeyPresent debug : Bool) (prompt : String)
    (tr : Transport) : Except String InvocationResult :=
  if !apiKeyPresent then
    let st := emitProgress initialQueryState .error apiKeyMissingMsg
    .ok { result := "Error: " ++ apiKeyMissingMsg, turnsUsed := 0, toolsCalled := [],
          sessionId := none, hasErrors := true,
          streamingEventsEmitted := st.eventsEmitted, events := st.events }
  else
    let st := runMessages debug prompt tr.messages
    match tr.thrown with
    | none => .ok (finishOk st)
    | some e =>
      let st1 := emitProgress st .error e
      if jsIncludes e "ANTHROPIC_API_KEY" then
        .error authFailedMsg
      else if jsIncludes e "rate limit" || jsIncludes e "quota" then
        .error rateLimitMsg
      else
        .ok { result := "Error executing Claude Code: " ++ e, turnsUsed := 0,
              toolsCalled := [], sessionId := none, hasErrors := true,
              streamingEventsEmitted := st1.eventsEmitted, events := st1.events }

/-! The progress "bus" of the tool: `safeWrite` only increments
`streamingEventsEmitted`; the event object itself is not retained anywhere
for later delivery, so a subscriber attaching after publications can be
handed only the (always empty) retained list. -/

/-- Bus state: the counter, and what is retained for replay to a late
subscriber (the source retains nothing — `safeWrite` drops the event). -/
structure BusState where
  eventsEmitted : Nat
  retained : List ProgressEvent
deriving DecidableEq, Repr

/-- Initial bus state. -/
def busInit : BusState := { eventsEmitted := 0, retained := [] }

/-- `safeWrite` from the source: count the event for metadata, discard it. -/
def safeWrite (st : BusState) (_ : ProgressEvent) : BusState :=
  { st with eventsEmitted := st.eventsEmitted + 1 }

/-- Publish a sequence of events. -/
def publishAll (st : BusState) (es : List ProgressEvent) : BusState :=
  es.foldl safeWrite st

/-- Historical events a subscriber attaching now would receive: exactly
what the bus retained. -/
def subscribeHistorical (st : BusState) : List ProgressEvent := st.retained

/-! Embedding of the Category Dispatcher
(`claudeCodeAnalysisStep` of the per-category workflow variant). -/

/-- One review finding, per the workflow's zod schema. -/
structure Finding where
  category : String
  issue : String
  severity : String
  recommendation : String
  resolved : Bool
deriving DecidableEq, Repr

/-- `finding.category || 'general'`: an absent/empty category falls into
the `general` bucket. -/
def bucketCategory (f : Finding) : String :=
  if f.category = "" then "general" else f.category

/-- Append `f` to the bucket keyed `c`, creating the bucket at the end when
absent (JS object property insertion order for string keys). -/
def insertFinding : List (String × List Finding) → String → Finding → List (String × List Finding)
  | [], c, f => [(c, [f])]
  | (k, fs) :: rest, c, f =>
    if k = c then (k, fs ++ [f]) :: rest else (k, fs) :: insertFinding rest c f

/-- The `findings.reduce` grouping: buckets in first-encounter order, each
preserving its findings' original relative order. -/
def groupByCategory (findings : List Finding) : List (String × List Finding) :=
  findings.foldl (fun acc f => insertFinding acc (bucketCategory f) f) []

/-- Combined output of the dispatcher, plus the (ghost) ordered list of
categories for which the Remediation Invoker was invoked. -/
structure DispatchOutcome where
  analysisResult : String
  fixesProposed : List String
  invocations : List String
  success : Bool
deriving DecidableEq, Repr

/-- Loop body for one `[category, findings]` bucket: invoke the external
tool (`invoke`), then either append the labelled result block and the
category-prefixed fixes, or (in the `catch`) append only a labelled error
block — the fixes of a failed category are dropped.  The accumulator is
`(combinedAnalysisResult, allFixesProposed, categories invoked so far)`. -/
def dispatchBucket (invoke : String → List Finding → Except String String)
    (acc : String × List String × List String) (bucket : String × List Finding) :
    String × List String × List String :=
  let category := bucket.1
  let fs := bucket.2
  match invoke category fs with
  | .ok res =>
    (acc.1 ++ "\n\n## " ++ category.toUpper ++ " Analysis:\n" ++ res,
     acc.2.1 ++ fs.map (fun f => category ++ ": " ++ f.recommendation),
     acc.2.2 ++ [category])
  | .error e =>
    (acc.1 ++ "\n\n## " ++ category.toUpper ++ " Analysis:\nError: " ++ e,
     acc.2.1,
     acc.2.2 ++ [category])

/-- The per-category dispatch loop of `claudeCodeAnalysisStep`:
`invoke` stands for the external `claudeCodeTool.execute` call (its
argument is the bucket the prompt is generated from); step success is
"at least one fix was produced". -/
def dispatchCategories (invoke : String → List Finding → Except String String)
    (findings : List Finding) : DispatchOutcome :=
  let r := (groupByCategory findings).foldl (dispatchBucket invoke) ("", [], [])
  { analysisResult := if r.1 = "" then "No analysis results" else r.1,
    fixesProposed := r.2.1,
    invocations := r.2.2,
    success := !r.2.1.isEmpty }

/-! Embedding of the git delivery logic of `finalizeStep`
(first, real git-process variant). -/

/-- One external process invocation the delivery stage can perform; each
constructor corresponds to one literal `execSync`/`gh` command:
`git checkout -b <branch>`, `git status --porcelain`, `git add -u`,
`git add . --ignore-errors`, `git commit -m "<message>"`,
`git push -u origin <branch>`, `gh pr create ... --head <branch>`.
`deleteBranch` (`git branch -D <branch>`) is in the vocabulary so that
"no branch deletion happens" is expressible; the source never issues it. -/
inductive GitCmd where
  | checkoutNewBranch (branch : String)
  | statusPorcelain
  | addUpdateTracked
  | addAllIgnoreErrors
  | commit (message : String)
  | pushUpstream (branch : String)
  | ghPrCreate (head : String)
  | deleteBranch (branch : String)
deriving DecidableEq, Repr

/-- Is this command a branch deletion? -/
def GitCmd.isDeleteBranch : GitCmd → Bool
  | .deleteBranch _ => true
  | _ => false

/-- Is this command a PR creation attempt? -/
def GitCmd.isGhPrCreate : GitCmd → Bool
  | .ghPrCreate _ => true
  | _ => false

/-- Outcomes of the external git/gh commands for one run.  `Except.error e`
means the `execSync` call threw an error with message `e`.  `status` yields
the trimmed `git status --porcelain` output.  `ghPr` models
`createPRWithGitHubCLI`: it throws, or returns the URL extracted from the
`gh` output (`none` when the CLI failed or no URL matched — that helper
catches its own errors and returns null). -/
structure GitEnv where
  checkout : Except String Unit
  status : Except String String
  addU : Except String Unit
  addDot : Except String Unit
  addUFallback : Except String Unit
  commitRes : Except String Unit
  pushRes : Except String Unit
  ghPr : Except String (Option String)

/-- Error string pushed by the outer `catch (gitError)`. -/
def gitFailMsg (e : String) : String :=
  "Git operations failed: " ++ e ++ ". Ensure git is configured and repository has proper permissions."

/-- Error string pushed when `git status --porcelain` reports no changes. -/
def noChangesMsg : String :=
  "No changes to commit - Claude Code did not make any file modifications"

/-- Commit message: review id plus up to the first five fixes and a count
of the remainder. -/
def commitMessageFor (reviewId : String) (fixes : List String) : String :=
  let fixList := String.intercalate "\n" ((fixes.take 5).map (fun fix => "- " ++ fix))
  let additionalFixes :=
    if fixes.length > 5 then "\n... and " ++ toString (fixes.length - 5) ++ " more fixes"
    else ""
  "Fix issues from production review " ++ reviewId ++ "\n\nAddresses:\n" ++ fixList ++ additionalFixes

/-- Deterministic branch name: `fix/review-<id>-<Date.now()>`. -/
def branchNameFor (reviewId : String) (now : Nat) : String :=
  "fix/review-" ++ reviewId ++ "-" ++ toString now

/-- Delivery outcome: the `branchName`/`prUrl` locals of `finalizeStep`,
the accumulated `errors`, and the (ghost) trace of commands issued. -/
structure DeliveryResult where
  branchName : Option String
  prUrl : Option String
  errors : List String
  trace : List GitCmd
deriving DecidableEq, Repr

/-- Body of the outer `try` of `finalizeStep` after branch creation is
attempted.  Returns `(prUrl, errors, trace)`.  All `execSync` failures
other than the tolerated first staging attempt jump to the single outer
`catch`, which records one `gitFailMsg` error and attempts nothing
further.  PR-creation failure is caught by its own inner `catch` and only
appends an error. -/
def runGitDelivery (reviewId branchName : String) (autoCommit createPR : Bool)
    (fixes : List String) (env : GitEnv) :
    Option String × List String × List GitCmd :=
  let t0 : List GitCmd := [.checkoutNewBranch branchName]
  match env.checkout with
  | .error e => (none, [gitFailMsg e], t0)
  | .ok _ =>
    if autoCommit then
      let t1 := t0 ++ [.statusPorcelain]
      match env.status with
      | .error e => (none, [gitFailMsg e], t1)
      | .ok statusOut =>
        if statusOut = "" then
          (none, [noChangesMsg], t1)
        else
          let staging :
              Except String Unit × List GitCmd :=
            match env.addU with
            | .ok _ =>
              match env.addDot with
              | .ok _ => (.ok (), t1 ++ [.addUpdateTracked, .addAllIgnoreErrors])
              | .error _ =>
                match env.addUFallback with
                | .ok _ =>
                  (.ok (), t1 ++ [.addUpdateTracked, .addAllIgnoreErrors, .addUpdateTracked])
                | .error e2 =>
                  (.error e2, t1 ++ [.addUpdateTracked, .addAllIgnoreErrors, .addUpdateTracked])
            | .error _ =>
              match env.addUFallback with
              | .ok _ => (.ok (), t1 ++ [.addUpdateTracked, .addUpdateTracked])
              | .error e2 => (.error e2, t1 ++ [.addUpdateTracked, .addUpdateTracked])
          match staging with
          | (.error e, t2) => (none, [gitFailMsg e], t2)
          | (.ok _, t2) =>
            let t3 := t2 ++ [.commit (commitMessageFor reviewId fixes)]
            match env.commitRes with
            | .error e => (none, [gitFailMsg e], t3)
            | .ok _ =>
              let t4 := t3 ++ [.pushUpstream branchName]
              match env.pushRes with
              | .error e => (none, [gitFailMsg e], t4)
              | .ok _ =>
                if createPR then
                  let t5 := t4 ++ [.ghPrCreate branchName]
                  match env.ghPr with
                  | .error e => (none, ["Failed to create PR: " ++ e], t5)
                  | .ok none => (none, ["Failed to create PR with GitHub CLI"], t5)
                  | .ok (some url) =>
                    ((if url = "" then none else some url), [], t5)
                else (none, [], t4)
    else (none, [], t0)

/-- The git delivery stage of `finalizeStep`: a no-op unless
`!dryRun && fixesProposed.length > 0`; otherwise the branch name is
computed and `runGitDelivery` performed. -/
def deliveryStage (reviewId : String) (dryRun autoCommit createPR : Bool)
    (fixes : List String) (now : Nat) (env : GitEnv) : DeliveryResult :=
  if !dryRun && !fixes.isEmpty then
    let b := branchNameFor reviewId now
    let r := runGitDelivery reviewId b autoCommit createPR fixes env
    { branchName := some b, prUrl := r.1, errors := r.2.1, trace := r.2.2 }
  else
    { branchName := none, prUrl := none, errors := [], trace := [] }

/-- The `summary` object of the workflow output. -/
structure WorkflowSummary where
  phase : String
  claudeCodeExecutions : Nat
  totalExecutionTime : Nat
  streamingEventsEmitted : Nat
deriving DecidableEq, Repr

/-- Full return value of `finalizeStep`; `delivery` carries the stage's
locals (branch, PR URL, errors) and the command trace, `errorsField` is the
returned `errors` field (`undefined`, i.e. `none`, when empty). -/
structure FinalizeResult where
  success : Bool
  reviewAssessmentId : String
  summary : WorkflowSummary
  errorsField : Option (List String)
  delivery : DeliveryResult
deriving DecidableEq, Repr

/-- `finalizeStep.execute`: run the delivery stage, then assemble the
summary.  `success = errors.length === 0 && (dryRun || fixesProposed.length
> 0)`; `phase` is the constant `"complete"`; `streamingEventsEmitted` is
the constant `0`; `claudeCodeExecutions` is `ceil(findings/3)` when any
findings exist, else `1`. -/
def finalizeStepRun (reviewId : String) (findingsCount : Nat)
    (dryRun autoCommit createPR : Bool) (fixes : List String)
    (executionTime now : Nat) (env : GitEnv) : FinalizeResult :=
  let d := deliveryStage reviewId dryRun autoCommit createPR fixes now env
  { success := d.errors.isEmpty && (dryRun || !fixes.isEmpty),
    reviewAssessmentId := reviewId,
    summary :=
      { phase := "complete",
        claudeCodeExecutions := if findingsCount > 0 then (findingsCount + 2) / 3 else 1,
        totalExecutionTime := executionTime,
        streamingEventsEmitted := 0 },
    errorsField := if d.errors.isEmpty then none else some d.errors,
    delivery := d }

/-! Helper lemmas. -/

/-- The branch name always carries the non-empty `fix/review-` prefix. -/
theorem branchNameFor_ne_empty (reviewId : String) (now : Nat) :
    branchNameFor reviewId now ≠ "" := by
  intro h
  have h2 := congrArg String.length h
  simp only [branchNameFor, String.length_append] at h2
  have e1 : "fix/review-".length = 11 := rfl
  have e2 : "".length = 0 := rfl
  omega

/-- A non-success terminal result string is never empty. -/
theorem execFailed_ne_empty (s : String) : ("Execution failed: " ++ s) ≠ "" := by
  intro h
  have h2 := congrArg String.length h
  simp only [String.length_append] at h2
  have e1 : "Execution failed: ".length = 18 := rfl
  have e2 : "".length = 0 := rfl
  omega

/-- `publishAll` adds exactly one count per event and retains nothing new. -/
theorem publishAll_spec (es : List ProgressEvent) :
    ∀ st : BusState, (publishAll st es).eventsEmitted = st.eventsEmitted + es.length
      ∧ (publishAll st es).retained = st.retained := by
  induction es with
  | nil => intro st; simp [publishAll]
  | cons e es ih =>
    intro st
    have h := ih (safeWrite st e)
    simp only [publishAll, List.foldl_cons] at h ⊢
    simpa [safeWrite, Nat.add_comm, Nat.add_assoc, Nat.add_left_comm] using h

/-- `emitProgress` keeps the counter equal to the number of events emitted. -/
theorem emitProgress_inv (st : QueryState) (k : EventKind) (i : String)
    (h : st.eventsEmitted = st.events.length) :
    (emitProgress st k i).eventsEmitted = (emitProgress st k i).events.length := by
  simp [emitProgress, h]

/-- `processContent` preserves the counter invariant. -/
theorem processContent_inv (st : QueryState) (c : ContentBlock)
    (h : st.eventsEmitted = st.events.length) :
    (processContent st c).eventsEmitted = (processContent st c).events.length := by
  cases c with
  | text t =>
    by_cases ht : t = "" <;> simp [processContent, ht, emitProgress, h]
  | toolUse name =>
    simp only [processContent]
    split <;> simp [emitProgress, h]
  | other ty => simpa [processContent] using h

/-- Folding `processContent` preserves the counter invariant. -/
theorem foldl_processContent_inv (content : List ContentBlock) :
    ∀ st : QueryState, st.eventsEmitted = st.events.length →
      (content.foldl processContent st).eventsEmitted
        = (content.foldl processContent st).events.length := by
  induction content with
  | nil => intro st h; simpa using h
  | cons c cs ih => intro st h; exact ih _ (processContent_inv st c h)

/-- `processMessage` preserves the counter invariant. -/
theorem processMessage_inv (debug : Bool) (st : QueryState) (m : SDKMessage)
    (h : st.eventsEmitted = st.events.length) :
    (processMessage debug st m).eventsEmitted = (processMessage debug st m).events.length := by
  cases m with
  | result subtype res numTurns sid =>
    simp only [processMessage]
    split <;> simp [emitProgress, h]
  | assistant content sid =>
    have h1 := foldl_processContent_inv content st h
    simp [processMessage, emitProgress, h1]
  | user sid => simp [processMessage, emitProgress, h]
  | system subtype tools sid =>
    simp only [processMessage]
    split
    · cases tools with
      | some ts => simp [emitProgress, h]
      | none => simpa using h
    · simpa using h
  | other ty =>
    simp only [processMessage]
    split <;> simp [emitProgress, h]

/-- The whole message loop preserves the counter invariant. -/
theorem foldl_processMessage_inv (debug : Bool) (msgs : List SDKMessage) :
    ∀ st : QueryState, st.eventsEmitted = st.events.length →
      (msgs.foldl (processMessage debug) st).eventsEmitted
        = (msgs.foldl (processMessage debug) st).events.length := by
  induction msgs with
  | nil => intro st h; simpa using h
  | cons m ms ih => intro st h; exact ih _ (processMessage_inv debug st m h)

/-- After `runMessages` the counter equals the number of events emitted. -/
theorem runMessages_inv (debug : Bool) (prompt : String) (msgs : List SDKMessage) :
    (runMessages debug prompt msgs).eventsEmitted
      = (runMessages debug prompt msgs).events.length := by
  unfold runMessages
  exact foldl_processMessage_inv debug msgs _
    (emitProgress_inv initialQueryState .starting prompt (by simp [initialQueryState]))

/-! Claim theorems. -/

/-- Claim C2: for every pipeline run, the top-level `success` flag of the
final summary is true if and only if the accumulated error list is empty
and (`dryRun` is true or at least one fix was produced). -/
theorem c2_success_iff (reviewId : String) (findingsCount : Nat)
    (dryRun autoCommit createPR : Bool) (fixes : List String)
    (executionTime now : Nat) (env : GitEnv) :
    (finalizeStepRun reviewId findingsCount dryRun autoCommit createPR fixes
        executionTime now env).success = true
      ↔ ((finalizeStepRun reviewId findingsCount dryRun autoCommit createPR fixes
            executionTime now env).delivery.errors = []
          ∧ (dryRun = true ∨ fixes ≠ [])) := by
  simp [finalizeStepRun, List.isEmpty_iff, Bool.and_eq_true, Bool.or_eq_true]

/-- Claim C9: every run reaching the finalize step reports
`phase = "complete"` and `streamingEventsEmitted = 0` in its summary,
regardless of the inputs, the git outcomes, and any recorded errors. -/
theorem c9_constant_summary (reviewId : String) (findingsCount : Nat)
    (dryRun autoCommit createPR : Bool) (fixes : List String)
    (executionTime now : Nat) (env : GitEnv) :
    (finalizeStepRun reviewId findingsCount dryRun autoCommit createPR fixes
        executionTime now env).summary.phase = "complete"
      ∧ (finalizeStepRun reviewId findingsCount dryRun autoCommit createPR fixes
          executionTime now env).summary.streamingEventsEmitted = 0 :=
  ⟨rfl, rfl⟩

/-- Claim C8: the `eventsEmitted` counter in the returned metadata equals
the number N of progress events published during the invocation, and a
subscriber attaching to the bus after those N publications receives zero
historical events (the bus retains nothing). -/
theorem c8_counter_and_no_replay (apiKeyPresent debug : Bool) (prompt : String)
    (tr : Transport) (r : InvocationResult)
    (h : claudeCodeStreamingExecute apiKeyPresent debug prompt tr = .ok r) :
    r.streamingEventsEmitted = r.events.length
      ∧ (publishAll busInit r.events).eventsEmitted = r.events.length
      ∧ subscribeHistorical (publishAll busInit r.events) = [] := by
  have hcount : r.streamingEventsEmitted = r.events.length := by
    unfold claudeCodeStreamingExecute at h
    split at h
    · injection h with h'
      subst h'
      simp [emitProgress, initialQueryState]
    · split at h
      · injection h with h'
        subst h'
        simpa [finishOk] using runMessages_inv debug prompt tr.messages
      · split at h
        · exact absurd h (by simp)
        · split at h
          · exact absurd h (by simp)
          · injection h with h'
            subst h'
            simpa [emitProgress] using runMessages_inv debug prompt tr.messages
  refine ⟨hcount, ?_, ?_⟩
  · simpa [busInit] using (publishAll_spec r.events busInit).1
  · simpa [subscribeHistorical, busInit] using (publishAll_spec r.events busInit).2

/-- Claim C8 witness: concrete invocation with an empty stream. -/
theorem c8_counter_and_no_replay_witness :
    (finishOk (runMessages false "p" [])).streamingEventsEmitted
        = (finishOk (runMessages false "p" [])).events.length
      ∧ (publishAll busInit (finishOk (runMessages false "p" [])).events).eventsEmitted
          = (finishOk (runMessages false "p" [])).events.length
      ∧ subscribeHistorical (publishAll busInit (finishOk (runMessages false "p" [])).events)
          = [] :=
  c8_counter_and_no_replay true false "p" { messages := [], thrown := none }
    (finishOk (runMessages false "p" [])) rfl

/-- Claim C3 counterexample: the claim says every error caught during
message iteration — including rate-limit and authentication failures — is
returned, not thrown.  But when the transport throws a rate-limit error,
the invoker re-throws the reclassified stable message instead of
returning an `InvocationResult` (modelled as `Except.error`). -/
theorem c3_counterexample :
    claudeCodeStreamingExecute true false "p"
        { messages := [], thrown := some "rate limit exceeded" }
      = .error rateLimitMsg := rfl

/-- Claim C3 as amended: when the transport throws with message `e`, the
invoker emits an `error` progress event; then, when `e` contains
`ANTHROPIC_API_KEY` it re-throws a stable authentication message, when `e`
contains `rate limit` or `quota` it re-throws a stable rate-limit message,
and otherwise it returns (does not throw) an `InvocationResult` with
`hasErrors = true` carrying the caught message. -/
theorem c3_amended (debug : Bool) (prompt : String) (msgs : List SDKMessage) (e : String) :
    (jsIncludes e "ANTHROPIC_API_KEY" = false → jsIncludes e "rate limit" = false →
      jsIncludes e "quota" = false →
      claudeCodeStreamingExecute true debug prompt { messages := msgs, thrown := some e }
        = .ok { result := "Error executing Claude Code: " ++ e, turnsUsed := 0,
                toolsCalled := [], sessionId := none, hasErrors := true,
                streamingEventsEmitted := (runMessages debug prompt msgs).eventsEmitted + 1,
                events := (runMessages debug prompt msgs).events
                  ++ [⟨.error, e⟩] })
    ∧ (jsIncludes e "ANTHROPIC_API_KEY" = true →
      claudeCodeStreamingExecute true debug prompt { messages := msgs, thrown := some e }
        = .error authFailedMsg)
    ∧ (jsIncludes e "ANTHROPIC_API_KEY" = false →
      (jsIncludes e "rate limit" = true ∨ jsIncludes e "quota" = true) →
      claudeCodeStreamingExecute true debug prompt { messages := msgs, thrown := some e }
        = .error rateLimitMsg) := by
  refine ⟨?_, ?_, ?_⟩
  · intro h1 h2 h3
    simp [claudeCodeStreamingExecute, h1, h2, h3, emitProgress]
  · intro h1
    simp [claudeCodeStreamingExecute, h1]
  · intro h1 h2
    rcases h2 with h2 | h2 <;> simp [claudeCodeStreamingExecute, h1, h2]

/-- Claim C3 amended witness: a generic transport error is returned as a
structured result. -/
theorem c3_amended_witness :
    claudeCodeStreamingExecute true false "p" { messages := [], thrown := some "boom" }
      = .ok { result := "Error executing Claude Code: " ++ "boom", turnsUsed := 0,
              toolsCalled := [], sessionId := none, hasErrors := true,
              streamingEventsEmitted := (runMessages false "p" []).eventsEmitted + 1,
              events := (runMessages false "p" []).events ++ [⟨.error, "boom"⟩] } :=
  (c3_amended false "p" [] "boom").1 (by decide) (by decide) (by decide)

/-- Claim C6: when the message stream ends with a terminal result message
of a non-success subtype, the invoker returns (rather than throws) a
result whose string is exactly `Execution failed: <subtype>` — any text
accumulated from earlier assistant messages is discarded — with
`hasErrors = true`, and an `error` progress event was emitted. -/
theorem c6_nonsuccess_terminal (debug : Bool) (prompt : String) (pre : List SDKMessage)
    (subtype : String) (res : Option String) (numTurns : Nat) (sid : String)
    (hsub : subtype ≠ "success") :
    ∃ out : InvocationResult,
      claudeCodeStreamingExecute true debug prompt
          { messages := pre ++ [SDKMessage.result subtype res numTurns sid], thrown := none }
        = .ok out
      ∧ out.result = "Execution failed: " ++ subtype
      ∧ out.hasErrors = true
      ∧ (⟨.error, "Execution failed: " ++ subtype⟩ : ProgressEvent) ∈ out.events := by
  refine ⟨finishOk (runMessages debug prompt
    (pre ++ [SDKMessage.result subtype res numTurns sid])), rfl, ?_, ?_, ?_⟩ <;>
  · have hst : runMessages debug prompt (pre ++ [SDKMessage.result subtype res numTurns sid])
        = processMessage debug (runMessages debug prompt pre)
            (SDKMessage.result subtype res numTurns sid) := by
      simp [runMessages, List.foldl_append]
    rw [hst]
    simp [processMessage, hsub, emitProgress, finishOk, execFailed_ne_empty]

/-- Claim C6 witness: a non-success terminal after a partial assistant
response. -/
theorem c6_nonsuccess_terminal_witness :
    ∃ out : InvocationResult,
      claudeCodeStreamingExecute true false "p"
          { messages := [SDKMessage.assistant [ContentBlock.text "partial"] "s1"]
              ++ [SDKMessage.result "error_max_turns" none 7 "s1"], thrown := none }
        = .ok out
      ∧ out.result = "Execution failed: " ++ "error_max_turns"
      ∧ out.hasErrors = true
      ∧ (⟨.error, "Execution failed: " ++ "error_max_turns"⟩ : ProgressEvent) ∈ out.events :=
  c6_nonsuccess_terminal false "p" [SDKMessage.assistant [ContentBlock.text "partial"] "s1"]
    "error_max_turns" none 7 "s1" (by decide)

/-- The dedup fold preserves membership of the accumulator. -/
theorem mem_foldl_setIns_of_mem_acc (x : String) (l : List String) :
    ∀ acc : List String, x ∈ acc →
      x ∈ l.foldl (fun acc y => if acc.contains y then acc else acc ++ [y]) acc := by
  induction l with
  | nil => intro acc h; simpa using h
  | cons y ys ih =>
    intro acc h
    simp only [List.foldl_cons]
    apply ih
    split
    · exact h
    · exact List.mem_append_left _ h

/-- The dedup fold absorbs every element of the folded list. -/
theorem mem_foldl_setIns_of_mem (x : String) (l : List String) (hx : x ∈ l) :
    ∀ acc : List String,
      x ∈ l.foldl (fun acc y => if acc.contains y then acc else acc ++ [y]) acc := by
  induction l with
  | nil => cases hx
  | cons y ys ih =>
    intro acc
    simp only [List.foldl_cons]
    rcases List.mem_cons.mp hx with rfl | hx'
    · apply mem_foldl_setIns_of_mem_acc
      split
      · next hcon => simpa using hcon
      · exact List.mem_append_right _ (List.mem_singleton.mpr rfl)
    · exact ih hx' _

/-- Every element of `l` survives `jsSetFromList l`. -/
theorem mem_jsSetFromList (x : String) (l : List String) (hx : x ∈ l) :
    x ∈ jsSetFromList l :=
  mem_foldl_setIns_of_mem x l hx []

/-- `processContent` never removes a recorded tool name. -/
theorem processContent_tools_mono (st : QueryState) (c : ContentBlock) (t : String)
    (h : t ∈ st.toolsCalled) : t ∈ (processContent st c).toolsCalled := by
  cases c with
  | text s =>
    by_cases hs : s = "" <;> simp [processContent, hs, emitProgress, h]
  | toolUse name =>
    simp only [processContent, emitProgress]
    split
    · exact List.mem_append_left _ h
    · exact h
  | other ty => simpa [processContent] using h

/-- Folding `processContent` never removes a recorded tool name. -/
theorem foldl_processContent_tools_mono (content : List ContentBlock) (t : String) :
    ∀ st : QueryState, t ∈ st.toolsCalled →
      t ∈ (content.foldl processContent st).toolsCalled := by
  induction content with
  | nil => intro st h; simpa using h
  | cons c cs ih => intro st h; exact ih _ (processContent_tools_mono st c t h)

/-- `processMessage` never removes a recorded tool name. -/
theorem processMessage_tools_mono (debug : Bool) (st : QueryState) (m : SDKMessage)
    (t : String) (h : t ∈ st.toolsCalled) :
    t ∈ (processMessage debug st m).toolsCalled := by
  cases m with
  | result subtype res numTurns sid =>
    simp only [processMessage]
    split <;> simpa [emitProgress] using h
  | assistant content sid =>
    simpa [processMessage, emitProgress] using
      foldl_processContent_tools_mono content t st h
  | user sid => simpa [processMessage, emitProgress] using h
  | system subtype tools sid =>
    simp only [processMessage]
    split
    · cases tools with
      | some ts =>
        simpa [emitProgress] using
          mem_jsSetFromList t (st.toolsCalled ++ ts) (List.mem_append_left _ h)
      | none => simpa using h
    · simpa using h
  | other ty =>
    simp only [processMessage]
    split <;> simpa [emitProgress] using h

/-- The whole message loop never removes a recorded tool name. -/
theorem foldl_processMessage_tools_mono (debug : Bool) (msgs : List SDKMessage) (t : String) :
    ∀ st : QueryState, t ∈ st.toolsCalled →
      t ∈ (msgs.foldl (processMessage debug) st).toolsCalled := by
  induction msgs with
  | nil => intro st h; simpa using h
  | cons m ms ih => intro st h; exact ih _ (processMessage_tools_mono debug st m t h)

/-- Claim C10: every tool name listed by a `system`/`init` message is
merged into the returned `toolsCalled`; consequently `toolsCalled` can
name tools that were never invoked — concretely, a stream consisting of
one init message yields `toolsCalled = ["Read", "Write"]` while no
`tool_use` event was ever emitted. -/
theorem c10_init_tools_merged (debug : Bool) (prompt : String)
    (pre post : List SDKMessage) (ts : List String) (sid : String) (t : String)
    (ht : t ∈ ts) :
    t ∈ (runMessages debug prompt
          (pre ++ SDKMessage.system "init" (some ts) sid :: post)).toolsCalled
    ∧ (runMessages false "p" [SDKMessage.system "init" (some ["Read", "Write"]) "s"]).toolsCalled
        = ["Read", "Write"]
    ∧ ((runMessages false "p" [SDKMessage.system "init" (some ["Read", "Write"]) "s"]).events.all
        fun e => !(e.kind == EventKind.toolUse)) = true := by
  refine ⟨?_, by decide, by decide⟩
  have hsplit : runMessages debug prompt
      (pre ++ SDKMessage.system "init" (some ts) sid :: post)
      = post.foldl (processMessage debug)
          (processMessage debug (runMessages debug prompt pre)
            (SDKMessage.system "init" (some ts) sid)) := by
    simp [runMessages, List.foldl_append]
  rw [hsplit]
  apply foldl_processMessage_tools_mono
  simpa [processMessage, emitProgress] using
    mem_jsSetFromList t ((runMessages debug prompt pre).toolsCalled ++ ts)
      (List.mem_append_right _ ht)

/-- Claim C10 witness: the single listed tool is merged. -/
theorem c10_init_tools_merged_witness :
    "Read" ∈ (runMessages false "p"
        ([] ++ SDKMessage.system "init" (some ["Read"]) "s" :: [])).toolsCalled
    ∧ (runMessages false "p" [SDKMessage.system "init" (some ["Read", "Write"]) "s"]).toolsCalled
        = ["Read", "Write"]
    ∧ ((runMessages false "p" [SDKMessage.system "init" (some ["Read", "Write"]) "s"]).events.all
        fun e => !(e.kind == EventKind.toolUse)) = true :=
  c10_init_tools_merged false "p" [] [] ["Read"] "s" "Read" (by decide)

/-- Inserting a finding grows the total bucketed count by one. -/
theorem insertFinding_sum (acc : List (String × List Finding)) (c : String) (f : Finding) :
    ((insertFinding acc c f).map (fun b => b.2.length)).sum
      = (acc.map (fun b => b.2.length)).sum + 1 := by
  induction acc with
  | nil => simp [insertFinding]
  | cons b rest ih =>
    obtain ⟨k, fs⟩ := b
    by_cases hk : k = c <;> simp [insertFinding, hk, ih] <;> omega

/-- Grouping preserves the total number of findings. -/
theorem groupFold_sum (fs : List Finding) :
    ∀ acc : List (String × List Finding),
      (((fs.foldl (fun a f => insertFinding a (bucketCategory f) f) acc).map
          (fun b => b.2.length)).sum)
        = (acc.map (fun b => b.2.length)).sum + fs.length := by
  induction fs with
  | nil => intro acc; simp
  | cons f fs ih =>
    intro acc
    simp only [List.foldl_cons, ih, insertFinding_sum, List.length_cons]
    omega

/-- Inserting under an existing key leaves the key list unchanged. -/
theorem insertFinding_keys_mem (acc : List (String × List Finding)) (c : String) (f : Finding)
    (h : c ∈ acc.map Prod.fst) :
    (insertFinding acc c f).map Prod.fst = acc.map Prod.fst := by
  induction acc with
  | nil => cases h
  | cons b rest ih =>
    obtain ⟨k, fs⟩ := b
    by_cases hk : k = c
    · simp [insertFinding, hk]
    · have hc : c ∈ rest.map Prod.fst := by
        rcases List.mem_cons.mp h with h' | h'
        · exact absurd h'.symm hk
        · exact h'
      simp [insertFinding, hk, ih hc]

/-- Inserting under a fresh key appends it to the key list. -/
theorem insertFinding_keys_not_mem (acc : List (String × List Finding)) (c : String)
    (f : Finding) (h : c ∉ acc.map Prod.fst) :
    (insertFinding acc c f).map Prod.fst = acc.map Prod.fst ++ [c] := by
  induction acc with
  | nil => simp [insertFinding]
  | cons b rest ih =>
    obtain ⟨k, fs⟩ := b
    have hk : k ≠ c := by
      intro hk
      exact h (by simp [hk])
    have hc : c ∉ rest.map Prod.fst := by
      intro hc
      exact h (by simp [hc])
    simp [insertFinding, hk, ih hc]

/-- Key membership after an insertion. -/
theorem mem_keys_insertFinding (acc : List (String × List Finding)) (c x : String)
    (f : Finding) :
    x ∈ (insertFinding acc c f).map Prod.fst ↔ x ∈ acc.map Prod.fst ∨ x = c := by
  by_cases h : c ∈ acc.map Prod.fst
  · rw [insertFinding_keys_mem acc c f h]
    constructor
    · exact Or.inl
    · rintro (hx | rfl)
      · exact hx
      · exact h
  · rw [insertFinding_keys_not_mem acc c f h]
    simp

/-- Insertion preserves distinctness of the bucket keys. -/
theorem insertFinding_keys_nodup (acc : List (String × List Finding)) (c : String)
    (f : Finding) (h : (acc.map Prod.fst).Nodup) :
    ((insertFinding acc c f).map Prod.fst).Nodup := by
  by_cases hc : c ∈ acc.map Prod.fst
  · rw [insertFinding_keys_mem acc c f hc]; exact h
  · rw [insertFinding_keys_not_mem acc c f hc]
    rw [List.nodup_append]
    refine ⟨h, List.nodup_singleton c, fun a ha hb => ?_⟩
    rw [List.mem_singleton] at hb
    exact hc (hb ▸ ha)

/-- Key distinctness of the whole grouping fold. -/
theorem groupFold_keys_nodup (fs : List Finding) :
    ∀ acc : List (String × List Finding), (acc.map Prod.fst).Nodup →
      (((fs.foldl (fun a f => insertFinding a (bucketCategory f) f) acc).map Prod.fst)).Nodup := by
  induction fs with
  | nil => intro acc h; simpa using h
  | cons f fs ih =>
    intro acc h
    exact ih _ (insertFinding_keys_nodup acc (bucketCategory f) f h)

/-- Key membership of the whole grouping fold. -/
theorem groupFold_keys_mem (fs : List Finding) :
    ∀ (acc : List (String × List Finding)) (x : String),
      x ∈ (fs.foldl (fun a f => insertFinding a (bucketCategory f) f) acc).map Prod.fst
        ↔ x ∈ acc.map Prod.fst ∨ x ∈ fs.map bucketCategory := by
  induction fs with
  | nil => intro acc x; simp
  | cons f fs ih =>
    intro acc x
    rw [List.foldl_cons, ih]
    rw [mem_keys_insertFinding]
    simp only [List.map_cons, List.mem_cons]
    tauto

/-- The dispatcher calls the invoker once per bucket, in bucket order,
whether or not the call succeeds. -/
theorem dispatchFold_invocations (invoke : String → List Finding → Except String String)
    (bs : List (String × List Finding)) :
    ∀ acc : String × List String × List String,
      (bs.foldl (dispatchBucket invoke) acc).2.2 = acc.2.2 ++ bs.map Prod.fst := by
  induction bs with
  | nil => intro acc; simp
  | cons b rest ih =>
    intro acc
    rw [List.foldl_cons, ih]
    cases h : invoke b.1 b.2 <;> simp [dispatchBucket, h]

/-- When every bucket invocation succeeds, the fix list grows by exactly
one entry per finding. -/
theorem dispatchFold_fixes_length (invoke : String → List Finding → Except String String)
    (bs : List (String × List Finding)) :
    ∀ acc : String × List String × List String,
      (∀ b ∈ bs, (invoke b.1 b.2).isOk = true) →
      (bs.foldl (dispatchBucket invoke) acc).2.1.length
        = acc.2.1.length + (bs.map (fun b => b.2.length)).sum := by
  induction bs with
  | nil => intro acc _; simp
  | cons b rest ih =>
    intro acc hok
    rw [List.foldl_cons, ih _ (fun b' hb' => hok b' (List.mem_cons_of_mem _ hb'))]
    cases h : invoke b.1 b.2 with
    | error e =>
      have := hok b (List.mem_cons_self _ _)
      rw [h] at this
      simp [Except.isOk, Except.toBool] at this
    | ok res => simp [dispatchBucket, h]; omega

/-- Claim C7: for every finding sequence, the Category Dispatcher invokes
the Remediation Invoker exactly once per distinct category present (in
first-encounter order, with empty categories bucketed as `general`), and —
when each invocation returns — the combined fix list has length equal to
the total number of findings. -/
theorem c7_dispatch_per_category (invoke : String → List Finding → Except String String)
    (findings : List Finding)
    (hok : ∀ b ∈ groupByCategory findings, (invoke b.1 b.2).isOk = true) :
    (dispatchCategories invoke findings).invocations
        = (groupByCategory findings).map Prod.fst
      ∧ ((groupByCategory findings).map Prod.fst).Nodup
      ∧ (∀ c, c ∈ (groupByCategory findings).map Prod.fst
            ↔ c ∈ findings.map bucketCategory)
      ∧ (dispatchCategories invoke findings).fixesProposed.length = findings.length := by
  refine ⟨?_, ?_, ?_, ?_⟩
  · simpa [dispatchCategories] using
      dispatchFold_invocations invoke (groupByCategory findings) ("", [], [])
  · exact groupFold_keys_nodup findings [] (by simp)
  · intro c
    simpa [groupByCategory] using groupFold_keys_mem findings [] c
  · have h1 := dispatchFold_fixes_length invoke (groupByCategory findings) ("", [], []) hok
    have h2 := groupFold_sum findings []
    simp only [groupByCategory] at h1 ⊢
    simp [dispatchCategories, groupByCategory, h1, h2]

/-- Claim C7 witness: three findings over two distinct categories, with a
missing category bucketed as `general`. -/
theorem c7_dispatch_per_category_witness :
    (dispatchCategories (fun _ _ => .ok "done")
        [⟨"security", "i1", "high", "r1", false⟩, ⟨"", "i2", "low", "r2", false⟩,
         ⟨"security", "i3", "medium", "r3", false⟩]).invocations
      = (groupByCategory
          [⟨"security", "i1", "high", "r1", false⟩, ⟨"", "i2", "low", "r2", false⟩,
           ⟨"security", "i3", "medium", "r3", false⟩]).map Prod.fst
    ∧ ((groupByCategory
          [⟨"security", "i1", "high", "r1", false⟩, ⟨"", "i2", "low", "r2", false⟩,
           ⟨"security", "i3", "medium", "r3", false⟩]).map Prod.fst).Nodup
    ∧ (∀ c, c ∈ (groupByCategory
            [⟨"security", "i1", "high", "r1", false⟩, ⟨"", "i2", "low", "r2", false⟩,
             ⟨"security", "i3", "medium", "r3", false⟩]).map Prod.fst
          ↔ c ∈ ([⟨"security", "i1", "high", "r1", false⟩, ⟨"", "i2", "low", "r2", false⟩,
                  ⟨"security", "i3", "medium", "r3", false⟩] :
              List Finding).map bucketCategory)
    ∧ (dispatchCategories (fun _ _ => .ok "done")
        [⟨"security", "i1", "high", "r1", false⟩, ⟨"", "i2", "low", "r2", false⟩,
         ⟨"security", "i3", "medium", "r3", false⟩]).fixesProposed.length
      = ([⟨"security", "i1", "high", "r1", false⟩, ⟨"", "i2", "low", "r2", false⟩,
          ⟨"security", "i3", "medium", "r3", false⟩] : List Finding).length :=
  c7_dispatch_per_category (fun _ _ => .ok "done")
    [⟨"security", "i1", "high", "r1", false⟩, ⟨"", "i2", "low", "r2", false⟩,
     ⟨"security", "i3", "medium", "r3", false⟩]
    (fun _ _ => rfl)

/-- A PR URL is only ever produced on the all-clean path, whose error list
is empty. -/
theorem runGitDelivery_prUrl_clean (reviewId b : String) (autoCommit createPR : Bool)
    (fixes : List String) (env : GitEnv) :
    (runGitDelivery reviewId b autoCommit createPR fixes env).1 ≠ none →
    (runGitDelivery reviewId b autoCommit createPR fixes env).2.1 = [] := by
  unfold runGitDelivery
  obtain ⟨ck, stt, au, ad, af, cm, ps, pr⟩ := env
  cases ck <;> cases stt <;> cases au <;> cases ad <;> cases af <;> cases cm <;>
    cases ps <;> rcases pr with e | (_ | url) <;> cases autoCommit <;> cases createPR <;>
    (try simp) <;> (try (split <;> simp))

/-- Claim C1: whenever the git delivery stage reports a non-empty `prUrl`,
the branch name is the (non-empty) computed `fix/review-...` name and the
error list is empty — no commit or push failure coexists with a PR URL. -/
theorem c1_prUrl_implies_clean (reviewId : String) (dryRun autoCommit createPR : Bool)
    (fixes : List String) (now : Nat) (env : GitEnv)
    (h : (deliveryStage reviewId dryRun autoCommit createPR fixes now env).prUrl ≠ none) :
    (deliveryStage reviewId dryRun autoCommit createPR fixes now env).branchName
        = some (branchNameFor reviewId now)
      ∧ branchNameFor reviewId now ≠ ""
      ∧ (deliveryStage reviewId dryRun autoCommit createPR fixes now env).errors = [] := by
  by_cases hc : (!dryRun && !fixes.isEmpty) = true
  · rw [deliveryStage, if_pos hc] at h ⊢
    exact ⟨rfl, branchNameFor_ne_empty reviewId now,
      runGitDelivery_prUrl_clean reviewId (branchNameFor reviewId now)
        autoCommit createPR fixes env h⟩
  · rw [deliveryStage, if_neg hc] at h
    exact absurd rfl h

/-- Claim C1 witness: a fully successful delivery with a created PR. -/
theorem c1_prUrl_implies_clean_witness :
    (deliveryStage "R1" false true true ["f"] 0
        { checkout := .ok (), status := .ok "M src/a.ts", addU := .ok (), addDot := .ok (),
          addUFallback := .ok (), commitRes := .ok (), pushRes := .ok (),
          ghPr := .ok (some "https://github.com/o/r/pull/1") }).branchName
        = some (branchNameFor "R1" 0)
      ∧ branchNameFor "R1" 0 ≠ ""
      ∧ (deliveryStage "R1" false true true ["f"] 0
          { checkout := .ok (), status := .ok "M src/a.ts", addU := .ok (), addDot := .ok (),
            addUFallback := .ok (), commitRes := .ok (), pushRes := .ok (),
            ghPr := .ok (some "https://github.com/o/r/pull/1") }).errors = [] :=
  c1_prUrl_implies_clean "R1" false true true ["f"] 0
    { checkout := .ok (), status := .ok "M src/a.ts", addU := .ok (), addDot := .ok (),
      addUFallback := .ok (), commitRes := .ok (), pushRes := .ok (),
      ghPr := .ok (some "https://github.com/o/r/pull/1") }
    (by decide)

/-- Claim C4 counterexample: with `dryRun=false`, `autoCommit=true`, a
non-empty fix list, successful branch creation and a clean working tree,
the recorded error is the longer string
`No changes to commit - Claude Code did not make any file modifications`,
not the literal `no changes to commit` the claim states. -/
theorem c4_counterexample :
    (deliveryStage "R1" false true false ["use parameterized queries"] 1700000000000
        { checkout := .ok (), status := .ok "", addU := .ok (), addDot := .ok (),
          addUFallback := .ok (), commitRes := .ok (), pushRes := .ok (),
          ghPr := .ok none }).errors
        ≠ ["no changes to commit"]
      ∧ (deliveryStage "R1" false true false ["use parameterized queries"] 1700000000000
          { checkout := .ok (), status := .ok "", addU := .ok (), addDot := .ok (),
            addUFallback := .ok (), commitRes := .ok (), pushRes := .ok (),
            ghPr := .ok none }).errors
        = [noChangesMsg] := by
  refine ⟨?_, by decide⟩
  decide

/-- Claim C4 as amended: under those conditions the error list is exactly
`[No changes to commit - Claude Code did not make any file modifications]`,
the only git commands run are the branch creation and the status check,
and no branch-deletion command is ever issued — the created branch
persists. -/
theorem c4_amended (reviewId : String) (createPR : Bool) (fixes : List String)
    (now : Nat) (env : GitEnv) (hfix : fixes ≠ []) (hco : env.checkout = .ok ())
    (hst : env.status = .ok "") :
    (deliveryStage reviewId false true createPR fixes now env).errors = [noChangesMsg]
      ∧ (deliveryStage reviewId false true createPR fixes now env).trace
          = [.checkoutNewBranch (branchNameFor reviewId now), .statusPorcelain]
      ∧ ((deliveryStage reviewId false true createPR fixes now env).trace.all
          fun c => !c.isDeleteBranch) = true := by
  cases fixes with
  | nil => exact absurd rfl hfix
  | cons fx fxs =>
    refine ⟨?_, ?_, ?_⟩ <;>
      simp [deliveryStage, runGitDelivery, hco, hst, GitCmd.isDeleteBranch]

/-- Claim C4 amended witness. -/
theorem c4_amended_witness :
    (deliveryStage "R1" false true false ["use parameterized queries"] 1700000000000
        { checkout := .ok (), status := .ok "", addU := .ok (), addDot := .ok (),
          addUFallback := .ok (), commitRes := .ok (), pushRes := .ok (),
          ghPr := .ok none }).errors = [noChangesMsg]
      ∧ (deliveryStage "R1" false true false ["use parameterized queries"] 1700000000000
          { checkout := .ok (), status := .ok "", addU := .ok (), addDot := .ok (),
            addUFallback := .ok (), commitRes := .ok (), pushRes := .ok (),
            ghPr := .ok none }).trace
          = [.checkoutNewBranch (branchNameFor "R1" 1700000000000), .statusPorcelain]
      ∧ ((deliveryStage "R1" false true false ["use parameterized queries"] 1700000000000
          { checkout := .ok (), status := .ok "", addU := .ok (), addDot := .ok (),
            addUFallback := .ok (), commitRes := .ok (), pushRes := .ok (),
            ghPr := .ok none }).trace.all
          fun c => !c.isDeleteBranch) = true :=
  c4_amended "R1" false ["use parameterized queries"] 1700000000000
    { checkout := .ok (), status := .ok "", addU := .ok (), addDot := .ok (),
      addUFallback := .ok (), commitRes := .ok (), pushRes := .ok (), ghPr := .ok none }
    (by decide) rfl rfl

/-- Claim C5 counterexample: the claim says a push failure is non-fatal to
the subsequent delivery steps, yet with `createPR=true` and a failing
push the stage records the single fatal error and never attempts the
`gh pr create` command. -/
theorem c5_counterexample :
    ((deliveryStage "R1" false true true ["f"] 0
        { checkout := .ok (), status := .ok "M src/a.ts", addU := .ok (), addDot := .ok (),
          addUFallback := .ok (), commitRes := .ok (), pushRes := .error "network error",
          ghPr := .ok (some "https://github.com/o/r/pull/1") }).trace.all
        fun c => !c.isGhPrCreate) = true
      ∧ (deliveryStage "R1" false true true ["f"] 0
          { checkout := .ok (), status := .ok "M src/a.ts", addU := .ok (), addDot := .ok (),
            addUFallback := .ok (), commitRes := .ok (), pushRes := .error "network error",
            ghPr := .ok (some "https://github.com/o/r/pull/1") }).errors
          = [gitFailMsg "network error"]
      ∧ (deliveryStage "R1" false true true ["f"] 0
          { checkout := .ok (), status := .ok "M src/a.ts", addU := .ok (), addDot := .ok (),
            addUFallback := .ok (), commitRes := .ok (), pushRes := .error "network error",
            ghPr := .ok (some "https://github.com/o/r/pull/1") }).prUrl = none := by
  refine ⟨?_, ?_, ?_⟩ <;> decide

/-- Claim C5 as amended: delivery errors are accumulated into the error
list, but only the no-changes outcome and a PR-creation failure are
non-fatal; a branch-creation failure aborts the stage with a single error
and no later command, and a commit or push failure (or a staging failure
whose fallback also fails) likewise jumps to the stage's single error
handler, so after a push failure no PR creation is attempted. -/
theorem c5_amended (reviewId : String) (fixes : List String) (now : Nat) (e s : String)
    (env : GitEnv) (hfix : fixes ≠ []) (hs : s ≠ "") :
    (env.checkout = .error e →
      (deliveryStage reviewId false true true fixes now env).errors = [gitFailMsg e]
      ∧ (deliveryStage reviewId false true true fixes now env).trace
          = [.checkoutNewBranch (branchNameFor reviewId now)])
    ∧ (env.checkout = .ok () → env.status = .ok s → env.addU = .ok () →
       env.addDot = .ok () → env.commitRes = .ok () → env.pushRes = .ok () →
       env.ghPr = .error e →
      (deliveryStage reviewId false true true fixes now env).errors
          = ["Failed to create PR: " ++ e]
      ∧ (deliveryStage reviewId false true true fixes now env).branchName
          = some (branchNameFor reviewId now)
      ∧ (deliveryStage reviewId false true true fixes now env).prUrl = none)
    ∧ (env.checkout = .ok () → env.status = .ok s → env.addU = .ok () →
       env.addDot = .ok () → env.commitRes = .ok () → env.pushRes = .error e →
      (deliveryStage reviewId false true true fixes now env).errors = [gitFailMsg e]
      ∧ ((deliveryStage reviewId false true true fixes now env).trace.all
          fun c => !c.isGhPrCreate) = true) := by
  cases fixes with
  | nil => exact absurd rfl hfix
  | cons fx fxs =>
    refine ⟨fun h1 => ?_, fun h1 h2 h3 h4 h5 h6 h7 => ?_, fun h1 h2 h3 h4 h5 h6 => ?_⟩ <;>
      simp [deliveryStage, runGitDelivery, h1, GitCmd.isGhPrCreate, hs, *]

/-- Claim C5 amended witness: a push failure with PR creation requested. -/
theorem c5_amended_witness :
    (deliveryStage "R1" false true true ["f"] 0
        { checkout := .ok (), status := .ok "M src/a.ts", addU := .ok (), addDot := .ok (),
          addUFallback := .ok (), commitRes := .ok (), pushRes := .error "network error",
          ghPr := .ok (some "https://github.com/o/r/pull/1") }).errors
        = [gitFailMsg "network error"]
      ∧ ((deliveryStage "R1" false true true ["f"] 0
          { checkout := .ok (), status := .ok "M src/a.ts", addU := .ok (), addDot := .ok (),
            addUFallback := .ok (), commitRes := .ok (), pushRes := .error "network error",
            ghPr := .ok (some "https://github.com/o/r/pull/1") }).trace.all
          fun c => !c.isGhPrCreate) = true :=
  (c5_amended "R1" ["f"] 0 "network error" "M src/a.ts"
      { checkout := .ok (), status := .ok "M src/a.ts", addU := .ok (), addDot := .ok (),
        addUFallback := .ok (), commitRes := .ok (), pushRes := .error "network error",
        ghPr := .ok (some "https://github.com/o/r/pull/1") }
      (by decide) (by decide)).2.2 rfl rfl rfl rfl rfl rfl

end AccelosSpec
